import Mathlib

/-!
A shallow embedding, in Lean 4, of the telemetry-sampling and scheduled
alerting core of `bot.py` (an OpenWrt chat-bot monitor), together with
proofs about it.  Wall-clock times, byte counters and percentages are
modelled as rationals or integers; every external read (file content,
command output, environment configuration) appears as an explicit input
to the embedded function.
-/

namespace ST4Wrt

/-! ### Models of the Python primitives used by `bot.py` -/

/-- Model of Python `str.strip()`: whitespace removed at both ends. -/
def pyStrip (s : String) : String := s.trim

/-- Field accumulator for `pySplitWs`: `cur` holds the characters of the
current field in reverse. -/
def wsFieldsAux (cur : List Char) : List Char → List String
  | [] => if cur = [] then [] else [String.mk cur.reverse]
  | c :: rest =>
    if c.isWhitespace then
      if cur = [] then wsFieldsAux [] rest
      else String.mk cur.reverse :: wsFieldsAux [] rest
    else wsFieldsAux (c :: cur) rest

/-- Model of Python `str.split()` with no separator: split on runs of
whitespace and drop empty pieces. -/
def pySplitWs (s : String) : List String := wsFieldsAux [] s.data

/-- Model of Python `str.splitlines()` on already-stripped text (the code
always applies it to the result of `read_file`, which strips): the empty
string yields no lines, otherwise split on newline. -/
def pySplitLines (s : String) : List String :=
  if s = "" then [] else s.splitOn "\n"

/-- Model of Python `str.upper()` (the inputs here are ASCII MAC
addresses): upper-case every character. -/
def pyUpper (s : String) : String := String.mk (s.data.map Char.toUpper)

/-- Does the second character list occur as a prefix of the first? -/
def startsWithList : List Char → List Char → Bool
  | _, [] => true
  | [], _ :: _ => false
  | c :: s, d :: t => c == d && startsWithList s t

/-- Does the second character list occur anywhere inside the first? -/
def containsList : List Char → List Char → Bool
  | [], sub => sub == []
  | c :: s, sub => startsWithList (c :: s) sub || containsList s sub

/-- Model of the Python substring test `sub in s`. -/
def pyContains (s sub : String) : Bool := containsList s.data sub.data

/-- Model of Python `int(s)` as a fallible parse (`ValueError` on
anything that is not an integer literal). -/
def pyIntE (s : String) : Except String ℤ :=
  match s.toInt? with
  | some n => Except.ok n
  | none => Except.error "ValueError: invalid literal for int"

/-- Model of Python `float(s)` restricted to the plain decimal literals
the code actually reads (an optional minus sign, digits, an optional
fractional part); anything else fails like `ValueError`. -/
def pyFloat? (s : String) : Option ℚ :=
  let neg := s.startsWith "-"
  let body := if neg then s.drop 1 else s
  let mag : Option ℚ :=
    match body.splitOn "." with
    | [i] => (i.toNat?).map (fun n => (n : ℚ))
    | [i, f] =>
      match i.toNat?, f.toNat? with
      | some n, some m => some ((n : ℚ) + (m : ℚ) / (10 : ℚ) ^ f.length)
      | _, _ => none
    | _ => none
  mag.map (fun q => if neg then -q else q)

/-- Model of Python `round()` on a rational: round half to even. -/
def pyRound (q : ℚ) : ℤ :=
  let f := ⌊q⌋
  let r := q - (f : ℚ)
  if r < 1/2 then f
  else if 1/2 < r then f + 1
  else if f % 2 = 0 then f else f + 1

/-! ### `create_bar` (bot.py lines 76-79) -/

/-- The filled block character of the dashboard bar. -/
def barFull : Char := Char.ofNat 0x2588

/-- The unfilled block character of the dashboard bar. -/
def barEmpty : Char := Char.ofNat 0x2591

/-- Embedding of `create_bar`: clamp the percentage into `[0,100]` when
it is out of range, round the filled cell count, and bracket the bar.
The Python default `length=15` is passed explicitly by callers here;
`str * n` on a negative count yields the empty string, hence `Int.toNat`
on both repeat counts. -/
def create_bar (p : ℚ) (length : ℕ) : String :=
  let p := if 0 ≤ p ∧ p ≤ 100 then p else max 0 (min 100 p)
  let filled_len : ℤ := pyRound ((length : ℚ) * p / 100)
  "[" ++ String.mk (List.replicate filled_len.toNat barFull) ++
    String.mk (List.replicate ((length : ℤ) - filled_len).toNat barEmpty) ++ "]"

/-! ### The rate sampler `get_live_stats` (bot.py lines 230-260) -/

/-- One tracked interface's derived rates: an element of the
`interfaces_data` list built at bot.py line 255. -/
structure IfaceData where
  name : String
  net_up_speed : ℚ
  net_down_speed : ℚ
  net_up_percent : ℚ
  net_down_percent : ℚ
deriving Repr, DecidableEq

/-- The derived `live_data` record of `get_live_stats` (line 258). -/
structure LiveData where
  cpu_percent : ℚ
  ram_percent : ℚ
  disk_rw_speed : ℚ
  disk_percent : ℚ
  interfaces_data : List IfaceData
deriving Repr, DecidableEq

/-- The retained `prev_stats`/`next_stats` dictionary.  Optional fields
model the `dict.get` defaults used by the code; `rx?`/`tx?` model the
dynamic `rx_<iface>`/`tx_<iface>` keys. -/
structure PrevStats where
  time? : Option ℚ
  cpu_total? : Option ℤ
  cpu_idle? : Option ℤ
  disk_read? : Option ℤ
  disk_write? : Option ℤ
  interfaces : List String
  rx? : String → Option ℤ
  tx? : String → Option ℤ

/-- The freshly read counters consumed by one `get_live_stats` call:
parsed `/proc/meminfo`, `/proc/stat` and `/proc/diskstats` values, the
per-interface cumulative byte counters (`int(read_file(...) or 0)`,
which degrades a failed read to 0), and the wall clock. -/
structure CurrReading where
  time_now : ℚ
  mem_total : ℤ
  mem_available : ℤ
  cpu_total : ℤ
  cpu_idle : ℤ
  disk_read : ℤ
  disk_write : ℤ
  rx : String → ℤ
  tx : String → ℤ

/-- The resolved environment configuration read by `get_live_stats`:
`MAX_SPEED_<iface>` when set with a comma (down, up in Mbps), the global
fallbacks `NET_MAX_DOWNLOAD_MBPS`/`NET_MAX_UPLOAD_MBPS` (defaults 100
and 10), and `MAX_DISK_SPEED_BPS` (default `50*1024*1024`). -/
structure Env where
  max_speed : String → Option (ℚ × ℚ)
  net_max_download_mbps : ℚ
  net_max_upload_mbps : ℚ
  max_disk_speed_bps : ℚ

/-- The `time_delta` floor of line 244: deltas under half a second are
replaced by half a second. -/
def floorHalf (td : ℚ) : ℚ := if td < 1/2 then 1/2 else td

/-- The CPU percentage of line 246: busy share of the tick delta,
guarded to 0 when the total delta is not positive. -/
def cpuPercentOf (dt di : ℤ) : ℚ :=
  if 0 < dt then 100 * ((dt : ℚ) - (di : ℚ)) / (dt : ℚ) else 0

/-- The per-interface record of lines 250-255. -/
def ifaceDataOf (env : Env) (prev_stats : PrevStats) (curr : CurrReading)
    (time_delta : ℚ) (iface : String) : IfaceData :=
  let current_rx := curr.rx iface
  let current_tx := curr.tx iface
  let net_down_speed : ℚ :=
    ((current_rx - (prev_stats.rx? iface).getD current_rx : ℤ) : ℚ) / time_delta
  let net_up_speed : ℚ :=
    ((current_tx - (prev_stats.tx? iface).getD current_tx : ℤ) : ℚ) / time_delta
  let mbps := (env.max_speed iface).getD (env.net_max_download_mbps, env.net_max_upload_mbps)
  let net_down_percent : ℚ :=
    if 0 < mbps.1 then net_down_speed * 8 / (mbps.1 * 1024 ^ 2) * 100 else 0
  let net_up_percent : ℚ :=
    if 0 < mbps.2 then net_up_speed * 8 / (mbps.2 * 1024 ^ 2) * 100 else 0
  { name := iface, net_up_speed := net_up_speed, net_down_speed := net_down_speed,
    net_up_percent := net_up_percent, net_down_percent := net_down_percent }

/-- The `next_stats` dictionary of line 259: the current reading keyed
for the next call, with `rx_`/`tx_` entries for the tracked interfaces
only. -/
def snapshotOf (curr : CurrReading) (interfaces : List String) : PrevStats :=
  { time? := some curr.time_now
    cpu_total? := some curr.cpu_total
    cpu_idle? := some curr.cpu_idle
    disk_read? := some curr.disk_read
    disk_write? := some curr.disk_write
    interfaces := interfaces
    rx? := fun i => if i ∈ interfaces then some (curr.rx i) else none
    tx? := fun i => if i ∈ interfaces then some (curr.tx i) else none }

/-- Embedding of the rate computation of `get_live_stats` (bot.py lines
242-260), from the retained record and one fresh reading to the derived
`live_data` and the retained `next_stats`. -/
def get_live_stats (env : Env) (prev_stats : PrevStats) (curr : CurrReading) :
    LiveData × PrevStats :=
  let time_delta := floorHalf (curr.time_now - prev_stats.time?.getD curr.time_now)
  let cpu_delta_total := curr.cpu_total - prev_stats.cpu_total?.getD 0
  let cpu_delta_idle := curr.cpu_idle - prev_stats.cpu_idle?.getD 0
  let disk_rw_speed : ℚ :=
    (((curr.disk_read - prev_stats.disk_read?.getD 0) +
        (curr.disk_write - prev_stats.disk_write?.getD 0) : ℤ) : ℚ) / time_delta
  ({ cpu_percent := cpuPercentOf cpu_delta_total cpu_delta_idle
     ram_percent :=
       if 0 < curr.mem_total then
         ((curr.mem_total - curr.mem_available : ℤ) : ℚ) / (curr.mem_total : ℚ) * 100
       else 0
     disk_rw_speed := disk_rw_speed
     disk_percent :=
       if 0 < env.max_disk_speed_bps then disk_rw_speed / env.max_disk_speed_bps * 100
       else 0
     interfaces_data :=
       prev_stats.interfaces.map (ifaceDataOf env prev_stats curr time_delta) },
   snapshotOf curr prev_stats.interfaces)

/-- The empty `prev_stats` dictionary: no keys at all. -/
def emptyPrev : PrevStats :=
  { time? := none, cpu_total? := none, cpu_idle? := none, disk_read? := none,
    disk_write? := none, interfaces := [], rx? := fun _ => none, tx? := fun _ => none }

/-- Embedding of the `/proc/stat` read of `get_live_stats` (bot.py lines
234-236): take line 0 of the content (Python raises `IndexError` when
the read degraded to the empty string), parse every tick field with
`int` (`ValueError` on garbage); `cpu_total` is the field sum and
`cpu_idle` is field 3 (0 when there are fewer fields). -/
def parse_cpu_stat (content : String) : Except String (ℤ × ℤ) :=
  match pySplitLines content with
  | [] => Except.error "IndexError: list index out of range"
  | cpu_line :: _ =>
    if cpu_line ≠ "" then
      match ((pySplitWs cpu_line).drop 1).mapM pyIntE with
      | Except.error e => Except.error e
      | Except.ok cpu_parts => Except.ok (cpu_parts.sum, cpu_parts.getD 3 0)
    else Except.ok (0, 0)

/-! ### The CPU hysteresis watcher `cpu_alert_callback` (bot.py lines 975-1009) -/

/-- Embedding of the load-average read of `cpu_alert_callback` (bot.py
lines 979-982): `read_file("/proc/loadavg").split()[0]` raises
`IndexError` when the read degraded to the empty string, `float` raises
`ValueError` on garbage; otherwise the load percent is
`load / cores * 100`. -/
def cpu_alert_read (loadavg : String) (cpu_cores : ℕ) : Except String ℚ :=
  match pySplitWs loadavg with
  | [] => Except.error "IndexError: list index out of range"
  | s :: _ =>
    match pyFloat? s with
    | none => Except.error "ValueError: could not convert string to float"
    | some load_avg => Except.ok (load_avg / (cpu_cores : ℚ) * 100)

/-- The retained hysteresis state of `cpu_alert_callback`: the optional
`cpu_high_since` timestamp and the `cpu_alert_sent` flag (an absent key
reads as `False`). -/
structure CpuState where
  high_since : Option ℚ
  alert_sent : Bool
deriving Repr, DecidableEq

/-- The notifications `cpu_alert_callback` can send. -/
inductive CpuMsg
  | alert
  | recovery
deriving Repr, DecidableEq

/-- Embedding of one invocation of `cpu_alert_callback` (bot.py lines
987-1009) at wall clock `now` observing `load_percent` (the threshold is
90 and the alert duration 5 minutes = 300 s): returns the new state and
the notifications sent. -/
def cpu_alert_callback (s : CpuState) (now load_percent : ℚ) : CpuState × List CpuMsg :=
  if 90 < load_percent then
    let high_since := s.high_since.getD now
    if 300 < now - high_since then
      if s.alert_sent = false then (⟨some high_since, true⟩, [CpuMsg.alert])
      else (⟨some high_since, s.alert_sent⟩, [])
    else (⟨some high_since, s.alert_sent⟩, [])
  else
    if s.alert_sent then (⟨none, false⟩, [CpuMsg.recovery])
    else (⟨none, false⟩, [])

/-- Fold of `cpu_alert_callback` over a trace of `(time, load)` ticks,
collecting every notification sent. -/
def cpu_alert_run (s : CpuState) : List (ℚ × ℚ) → CpuState × List CpuMsg
  | [] => (s, [])
  | t :: rest =>
    let stepped := cpu_alert_callback s t.1 t.2
    let tail := cpu_alert_run stepped.1 rest
    (tail.1, stepped.2 ++ tail.2)

/-! ### The WAN watcher `check_wan_status` (bot.py lines 1011-1023) -/

/-- The notifications `check_wan_status` can send. -/
inductive WanMsg
  | connectionLost
  | addressChanged (old upd : String)
deriving Repr, DecidableEq

/-- The `current_ip` derivation of line 1014: the first WAN record's
address (itself already `ip or "N/A"`), or the sentinel `"N/A"` when no
WAN interface exists. -/
def wanCurrentIp (wan_ips : List String) : String :=
  match wan_ips with
  | [] => "N/A"
  | ip :: _ => ip

/-- Embedding of one run of `check_wan_status` (bot.py lines 1015-1023)
over the retained `last_wan_ip` (`none` models the key being absent) and
the current observation: returns the new retained value and the
notifications sent. -/
def check_wan_status (last_wan_ip : Option String) (current_ip : String) :
    Option String × List WanMsg :=
  match last_wan_ip with
  | none => (some current_ip, [])
  | some last_ip =>
    if current_ip ≠ last_ip then
      (some current_ip,
        [if current_ip = "N/A" then WanMsg.connectionLost
         else WanMsg.addressChanged last_ip current_ip])
    else (some last_ip, [])

/-! ### The new-device watcher `check_new_devices` (bot.py lines 1025-1045) -/

/-- One entry of `get_combined_device_list`: a leased device with its
display metadata (the mac already upper-cased by `get_dhcp_leases`). -/
structure NetDevice where
  mac : String
  ip : String
  name : String
deriving Repr, DecidableEq

/-- The `current_macs` set of line 1029. -/
def currentMacs (devices : List NetDevice) : Finset String :=
  (devices.map (fun d => d.mac)).toFinset

/-- Embedding of one run of `check_new_devices` (bot.py lines 1028-1043)
over the durable known set and one consistent observation `devices` (the
leased-address table as seen by both `get_dhcp_leases` and
`get_combined_device_list` during the run).  Returns the durable set as
left on disk and the macs notified (one notification is sent for each
new mac whose record is found in the combined list). -/
def check_new_devices (known_devices : Finset String) (devices : List NetDevice) :
    Finset String × List String :=
  if known_devices = ∅ ∧ currentMacs devices ≠ ∅ then (currentMacs devices, [])
  else
    let new_macs := ((devices.map (fun d => d.mac)).dedup).filter
      (fun m => m ∉ known_devices)
    if new_macs ≠ [] then
      (currentMacs devices,
        new_macs.filter (fun mac => (devices.find? (fun d => d.mac == mac)).isSome))
    else (known_devices, [])

/-! ### The scheduled-job registry (bot.py lines 509-535 and 880-893) -/

/-- The scheduler modelled as the list of active job names. -/
abbrev JobQueue := List String

/-- Embedding of `job_queue.get_jobs_by_name`. -/
def get_jobs_by_name (q : JobQueue) (name : String) : List String :=
  q.filter (fun n => n = name)

/-- The live-session tick job name for a chat: `live_<chat_id>`. -/
def liveJobName (chat_id : ℤ) : String := "live_" ++ toString chat_id

/-- Embedding of the scheduling effect of `live_monitor_start_handler`
(bot.py lines 512-535): a no-op when a tick job for the chat already
exists, otherwise register one repeating job under the chat's name. -/
def live_monitor_start (q : JobQueue) (chat_id : ℤ) : JobQueue :=
  if get_jobs_by_name q (liveJobName chat_id) ≠ [] then q
  else q ++ [liveJobName chat_id]

/-- Embedding of the scheduling effect of `schedule_reboot_handler`
(bot.py lines 886-892): remove every existing `scheduled_reboot` job,
then register a fresh daily one under that name. -/
def schedule_reboot (q : JobQueue) : JobQueue :=
  (q.filter (fun n => n ≠ "scheduled_reboot")) ++ ["scheduled_reboot"]

/-! ### The live-tick failure handling of `live_update_callback`
(bot.py lines 486-507) -/

/-- A classified delivery failure raised while pushing a live frame:
either a Telegram `BadRequest` carrying its message text, or any other
exception. -/
inductive DeliveryError
  | badRequest (msg : String)
  | otherError (msg : String)
deriving Repr, DecidableEq

/-- What a `live_update_callback` tick does with the session after a
delivery failure. -/
inductive TickOutcome
  | stoppedSilently
  | sessionContinues
  | stoppedWithNotice
deriving Repr, DecidableEq

/-- Embedding of the exception handlers of `live_update_callback`
(bot.py lines 495-507).  The branch
`elif "Message is not modified" not in str(e): pass` is translated
faithfully: both taking it and falling through it leave the session
running (state kept, job kept, nothing sent). -/
def live_update_on_failure (e : DeliveryError) : TickOutcome :=
  match e with
  | DeliveryError.badRequest msg =>
    if pyContains msg "Message to edit not found" then TickOutcome.stoppedSilently
    else if pyContains msg "Message is not modified" = false then TickOutcome.sessionContinues
    else TickOutcome.sessionContinues
  | DeliveryError.otherError _ => TickOutcome.stoppedWithNotice

/-! ### The device-file readers (bot.py lines 121-198) -/

/-- One parsed `/tmp/dhcp.leases` record. -/
structure Lease where
  mac : String
  ip : String
  name : String
deriving Repr, DecidableEq

/-- The record built by `get_dhcp_leases` from the whitespace fields of
one lease line (bot.py line 127): at least 4 fields are required and the
mac (field 1) is upper-cased. -/
def leaseOfParts (parts : List String) : Option Lease :=
  if 4 ≤ parts.length then
    some { mac := pyUpper (parts.getD 1 ""), ip := parts.getD 2 "", name := parts.getD 3 "" }
  else none

/-- Embedding of `get_dhcp_leases` (bot.py lines 121-129): skip blank
lines, parse each remaining line, sort by device name. -/
def get_dhcp_leases (content : String) : List Lease :=
  (((pySplitLines content).filter (fun l => pyStrip l ≠ "")).filterMap
      (fun l => leaseOfParts (pySplitWs l))).mergeSort
    (fun a b => decide (a.name ≤ b.name))

/-- Accumulation of one `usage.db` row into the ordered mac-to-usage
table (bot.py lines 163-171): totals are added when the mac is already
present, otherwise a fresh entry is appended. -/
def usageInsert (table : List (String × ℤ × ℤ)) (mac : String) (down up : ℤ) :
    List (String × ℤ × ℤ) :=
  if (table.find? (fun e => e.1 == mac)).isSome then
    table.map (fun e => if e.1 == mac then (e.1, e.2.1 + down, e.2.2 + up) else e)
  else table ++ [(mac, down, up)]

/-- The `usage.db` line loop of `get_traffic_usage` (bot.py lines
144-171): comment lines are skipped, rows need at least 7 comma fields,
field 0 is the upper-cased mac, field 5 the upload bytes and field 6 the
download bytes.  A row whose byte fields fail `int()` raises inside the
surrounding `try`, which aborts the loop; the rows accumulated so far
are returned. -/
def get_traffic_usage_go (lines : List String) (acc : List (String × ℤ × ℤ)) :
    List (String × ℤ × ℤ) :=
  match lines with
  | [] => acc
  | line :: rest =>
    if line.startsWith "#" then get_traffic_usage_go rest acc
    else
      let parts := (pyStrip line).splitOn ","
      if 7 ≤ parts.length then
        match pyIntE (parts.getD 5 ""), pyIntE (parts.getD 6 "") with
        | Except.ok upload_bytes, Except.ok download_bytes =>
          get_traffic_usage_go rest
            (usageInsert acc (pyUpper (parts.getD 0 "")) download_bytes upload_bytes)
        | _, _ => acc
      else get_traffic_usage_go rest acc

/-- Embedding of `get_traffic_usage` (bot.py lines 131-175) as the
mac-to-`(down, up)` table read from the database content. -/
def get_traffic_usage (content : String) : List (String × ℤ × ℤ) :=
  get_traffic_usage_go (pySplitLines content) []

/-- The single-quote character, kept out of string literals. -/
def squote : Char := Char.ofNat 39

/-- Membership in the regex class `\w` (ASCII word character). -/
def isWordChar (c : Char) : Bool := c.isAlphanum || c = Char.ofNat 95

/-- The rule sections matched by
`finditer(r"firewall\.(bot_block_\w+)=rule")` over the line-structured
output of `uci show firewall` (bot.py lines 190-192). -/
def blockRuleSections (lines : List String) : List String :=
  lines.filterMap (fun l =>
    if l.startsWith "firewall.bot_block_" && l.endsWith "=rule" then
      let sec := (l.drop 9).dropRight 5
      if 1 ≤ (sec.drop 10).length && (sec.drop 10).all isWordChar then some sec
      else none
    else none)

/-- Model of `re.search(<key>([^']+)', text)` over line-structured text:
the first line in which `key` occurs yields the run of non-quote
characters after it, which must be non-empty and closed by a quote. -/
def searchCapture (lines : List String) (key : String) : Option String :=
  lines.findSome? (fun l =>
    match l.splitOn key with
    | _ :: restStr :: _ =>
      let captured := restStr.takeWhile (fun c => c ≠ squote)
      if captured ≠ "" ∧ captured.length < restStr.length then some captured else none
    | _ => none)

/-- One blocked-device record of `get_blocked_devices`. -/
structure BlockedDev where
  name : String
  mac : String
deriving Repr, DecidableEq

/-- Embedding of `get_blocked_devices` (bot.py lines 188-198) over the
line-structured `uci show firewall` output: for each `bot_block_*` rule
section, capture its display name and source mac; the mac (line 197) is
upper-cased. -/
def get_blocked_devices (uci_lines : List String) : List BlockedDev :=
  (blockRuleSections uci_lines).filterMap (fun sec =>
    let nameKey := sec ++ ".name=" ++ String.singleton squote ++ "Block:"
    let macKey := sec ++ ".src_mac=" ++ String.singleton squote
    match searchCapture uci_lines nameKey, searchCapture uci_lines macKey with
    | some nm, some mac => some { name := nm, mac := pyUpper mac }
    | _, _ => none)

/-! ### Concrete sample inputs used by witnesses and counterexamples -/

/-- A fully defaulted environment (no `MAX_SPEED_*` overrides). -/
def sampleEnv : Env :=
  { max_speed := fun _ => none, net_max_download_mbps := 100,
    net_max_upload_mbps := 10, max_disk_speed_bps := 50 * 1024 * 1024 }

/-- A retained record whose counters are all behind the sample reading. -/
def samplePrev : PrevStats :=
  { time? := some 0, cpu_total? := some 100, cpu_idle? := some 50,
    disk_read? := some 0, disk_write? := some 0, interfaces := ["eth0"],
    rx? := fun i => if i = "eth0" then some 10 else none,
    tx? := fun i => if i = "eth0" then some 20 else none }

/-- A reading taken one second after `samplePrev` with larger counters. -/
def sampleCurr : CurrReading :=
  { time_now := 1, mem_total := 1000, mem_available := 400,
    cpu_total := 300, cpu_idle := 150, disk_read := 512, disk_write := 512,
    rx := fun _ => 110, tx := fun _ => 120 }

/-- A retained record whose disk-read counter is ahead of the next
reading (a counter reset in between). -/
def resetPrev : PrevStats :=
  { time? := some 0, cpu_total? := some 0, cpu_idle? := some 0,
    disk_read? := some 1000, disk_write? := some 0, interfaces := [],
    rx? := fun _ => none, tx? := fun _ => none }

/-- The reading after the reset: the disk-read counter restarted at 0. -/
def resetCurr : CurrReading :=
  { time_now := 1, mem_total := 0, mem_available := 0,
    cpu_total := 100, cpu_idle := 50, disk_read := 0, disk_write := 0,
    rx := fun _ => 0, tx := fun _ => 0 }

/-- A first reading (used against the empty retained record). -/
def seedCurr : CurrReading :=
  { time_now := 0, mem_total := 1000, mem_available := 400,
    cpu_total := 200, cpu_idle := 100, disk_read := 64, disk_write := 64,
    rx := fun _ => 0, tx := fun _ => 0 }

/-- Three observed devices for the first new-device run. -/
def c3SeedDevs : List NetDevice :=
  [{ mac := "AA:AA:AA:AA:AA:01", ip := "192.168.1.2", name := "alpha" },
   { mac := "AA:AA:AA:AA:AA:02", ip := "192.168.1.3", name := "beta" },
   { mac := "AA:AA:AA:AA:AA:03", ip := "192.168.1.4", name := "gamma" }]

/-- A durable known set holding one mac. -/
def c3Known : Finset String := {"AA:AA:AA:AA:AA:01"}

/-- An observation in which the known device is gone and one new device
appeared. -/
def c3Devs : List NetDevice :=
  [{ mac := "BB:BB:BB:BB:BB:02", ip := "192.168.1.9", name := "delta" }]

/-! ### Theorems -/

theorem pyRound_nonneg {q : ℚ} (h : 0 ≤ q) : 0 ≤ pyRound q := by
  simp only [pyRound]
  have h0 : (0 : ℤ) ≤ ⌊q⌋ := Int.floor_nonneg.mpr h
  split_ifs <;> omega

theorem pyRound_le {q : ℚ} {n : ℤ} (h : q ≤ (n : ℚ)) : pyRound q ≤ n := by
  simp only [pyRound]
  have hf : ⌊q⌋ ≤ n := by
    have := Int.floor_le_floor h
    simpa using this
  have hfq : (⌊q⌋ : ℚ) ≤ q := Int.floor_le q
  split_ifs with h1 h2 h3
  · exact hf
  · have hlt : (⌊q⌋ : ℚ) + 1/2 < q := by linarith
    have : (⌊q⌋ : ℚ) < (n : ℚ) := by linarith
    have : ⌊q⌋ < n := by exact_mod_cast this
    omega
  · exact hf
  · have heq : q - (⌊q⌋ : ℚ) = 1/2 := le_antisymm (not_lt.mp h2) (not_lt.mp h1)
    have : (⌊q⌋ : ℚ) < (n : ℚ) := by linarith
    have : ⌊q⌋ < n := by exact_mod_cast this
    omega

/-- C4: on a live-dashboard tick whose frame delivery fails, the code
stops the session silently for a `BadRequest` containing "Message to
edit not found" and keeps the session for "Message is not modified";
but - contradicting the claim - any *other* `BadRequest` (for example
"Chat not found") falls into the dead branch
`elif "Message is not modified" not in str(e): pass` and is silently
ignored, the session continuing, instead of stopping the session with a
best-effort notice.  Only failures that are not `BadRequest` stop the
session with a notice. -/
theorem c4_delivery_failure_classification :
    live_update_on_failure (DeliveryError.badRequest "Chat not found") =
      TickOutcome.sessionContinues ∧
    live_update_on_failure (DeliveryError.badRequest "Chat not found") ≠
      TickOutcome.stoppedWithNotice ∧
    live_update_on_failure (DeliveryError.badRequest "Message to edit not found") =
      TickOutcome.stoppedSilently ∧
    live_update_on_failure (DeliveryError.badRequest "Message is not modified") =
      TickOutcome.sessionContinues ∧
    live_update_on_failure (DeliveryError.otherError "TimedOut") =
      TickOutcome.stoppedWithNotice := by
  refine ⟨by decide, by decide, by decide, by decide, rfl⟩

/-- C5: contradicting the claim (and the spec's degrade-to-zero rule),
an external read that degrades to the empty string makes the consuming
code raise instead of completing: `get_live_stats` indexes
`read_file("/proc/stat").splitlines()[0]` (an `IndexError` on `""`) and
`cpu_alert_callback` indexes `read_file("/proc/loadavg").split()[0]`
likewise.  Both embedded read stages error on the empty read. -/
theorem c5_empty_read_raises :
    parse_cpu_stat "" = Except.error "IndexError: list index out of range" ∧
    cpu_alert_read "" 4 = Except.error "IndexError: list index out of range" := by
  exact ⟨rfl, rfl⟩

/-- C7: every run of the WAN watcher seeds the retained value on the
first observation with no notification; afterwards an observation equal
to the retained value emits nothing, and a differing observation emits
exactly one notification - connection lost when it is the sentinel
`"N/A"`, otherwise an address change - and updates the retained
value. -/
theorem c7_wan_watcher :
    (∀ ip : String, check_wan_status none ip = (some ip, [])) ∧
    (∀ last ip : String, ip ≠ last → ip = "N/A" →
      check_wan_status (some last) ip = (some ip, [WanMsg.connectionLost])) ∧
    (∀ last ip : String, ip ≠ last → ip ≠ "N/A" →
      check_wan_status (some last) ip = (some ip, [WanMsg.addressChanged last ip])) ∧
    (∀ last : String, check_wan_status (some last) last = (some last, [])) := by
  refine ⟨fun ip => rfl, ?_, ?_, ?_⟩
  · intro last ip hne hna
    subst hna
    simp [check_wan_status, hne]
  · intro last ip hne hna
    simp [check_wan_status, hne, hna]
  · intro last
    simp [check_wan_status]

/-- C7 witness: the spec's example sequence, evaluated through
`c7_wan_watcher`: seed `203.0.113.5` silently, then one address-change
notice for `203.0.113.9`, then one connection-lost notice for the
sentinel. -/
theorem c7_wan_watcher_witness :
    check_wan_status none "203.0.113.5" = (some "203.0.113.5", []) ∧
    check_wan_status (some "203.0.113.5") "203.0.113.9" =
      (some "203.0.113.9", [WanMsg.addressChanged "203.0.113.5" "203.0.113.9"]) ∧
    check_wan_status (some "203.0.113.9") "N/A" = (some "N/A", [WanMsg.connectionLost]) := by
  exact ⟨c7_wan_watcher.1 _,
    c7_wan_watcher.2.2.1 "203.0.113.5" "203.0.113.9" (by decide) (by decide),
    c7_wan_watcher.2.1 "203.0.113.9" "N/A" (by decide) rfl⟩

/-- C9: the bar renderer clamps the percentage into `[0,100]` before
rounding, and for every percentage `p` and positive length `n` it
returns a bracketed bar of exactly `n` block characters (filled plus
unfilled), so an out-of-range percentage still yields a well-formed
fixed-width frame. -/
theorem c9_create_bar_wellformed (p : ℚ) (n : ℕ) (hn : 0 < n) :
    (create_bar p n).length = n + 2 ∧
    create_bar p n = create_bar (max 0 (min 100 p)) n := by
  have hclamp : (if 0 ≤ p ∧ p ≤ 100 then p else max 0 (min 100 p)) = max 0 (min 100 p) := by
    split_ifs with h
    · obtain ⟨h1, h2⟩ := h
      rw [min_eq_right h2, max_eq_right h1]
    · rfl
  have hc0 : 0 ≤ max 0 (min 100 p) := le_max_left _ _
  have hc100 : max 0 (min 100 p) ≤ 100 := max_le (by norm_num) (min_le_left _ _)
  have hq0 : 0 ≤ (n : ℚ) * max 0 (min 100 p) / 100 := by positivity
  have hqn : (n : ℚ) * max 0 (min 100 p) / 100 ≤ ((n : ℤ) : ℚ) := by
    rw [div_le_iff₀ (by norm_num)]
    push_cast
    nlinarith [hc100, (Nat.cast_nonneg n : (0 : ℚ) ≤ (n : ℚ))]
  have hr0 : 0 ≤ pyRound ((n : ℚ) * max 0 (min 100 p) / 100) := pyRound_nonneg hq0
  have hrn : pyRound ((n : ℚ) * max 0 (min 100 p) / 100) ≤ (n : ℤ) := pyRound_le hqn
  constructor
  · simp only [create_bar, hclamp]
    simp only [String.length_append, String.length_mk, List.length_replicate]
    have h1 : ("[" : String).length = 1 := rfl
    have h2 : ("]" : String).length = 1 := rfl
    rw [h1, h2]
    omega
  · have hcc : (if 0 ≤ max 0 (min 100 p) ∧ max 0 (min 100 p) ≤ 100
        then max 0 (min 100 p) else max 0 (min 100 (max 0 (min 100 p)))) = max 0 (min 100 p) :=
      if_pos ⟨hc0, hc100⟩
    simp only [create_bar, hclamp, hcc]

/-- C9 witness: `c9_create_bar_wellformed` evaluated at percentage 50
and bar length 4. -/
theorem c9_create_bar_witness :
    (create_bar 50 4).length = 4 + 2 ∧
    create_bar 50 4 = create_bar (max 0 (min 100 50)) 4 :=
  c9_create_bar_wellformed 50 4 (by norm_num)

/-- C8: requesting a live-session start for a chat that already has
exactly one tick job is a no-op leaving exactly one job; starting with
none registers exactly one; re-registering the scheduled-reboot job
always leaves exactly one instance of that name; and both operations
preserve "at most one job per name" for every name. -/
theorem c8_job_registration_unique (q : JobQueue) (chat_id : ℤ) :
    (get_jobs_by_name q (liveJobName chat_id) = [] →
      (get_jobs_by_name (live_monitor_start q chat_id) (liveJobName chat_id)).length = 1) ∧
    ((get_jobs_by_name q (liveJobName chat_id)).length = 1 →
      live_monitor_start q chat_id = q ∧
      (get_jobs_by_name (live_monitor_start q chat_id) (liveJobName chat_id)).length = 1) ∧
    (get_jobs_by_name (schedule_reboot q) "scheduled_reboot").length = 1 ∧
    (∀ name : String, (get_jobs_by_name q name).length ≤ 1 →
      (get_jobs_by_name (live_monitor_start q chat_id) name).length ≤ 1 ∧
      (get_jobs_by_name (schedule_reboot q) name).length ≤ 1) := by
  have hreboot : (get_jobs_by_name (schedule_reboot q) "scheduled_reboot").length = 1 := by
    unfold get_jobs_by_name schedule_reboot
    rw [List.filter_append, List.filter_filter]
    have : (q.filter fun n => decide (n = "scheduled_reboot") && decide (n ≠ "scheduled_reboot")) = [] := by
      apply List.filter_eq_nil_iff.mpr
      intro a _
      simp only [Bool.and_eq_true, decide_eq_true_eq]
      rintro ⟨h1, h2⟩
      exact h2 h1
    rw [this]
    rfl
  refine ⟨?_, ?_, hreboot, ?_⟩
  · intro h
    unfold live_monitor_start
    rw [if_neg (by simpa using h)]
    unfold get_jobs_by_name at h ⊢
    rw [List.filter_append, h]
    simp
  · intro h
    have hne : get_jobs_by_name q (liveJobName chat_id) ≠ [] := by
      intro hnil
      rw [hnil] at h
      simp at h
    constructor
    · unfold live_monitor_start
      rw [if_pos hne]
    · unfold live_monitor_start
      rw [if_pos hne]
      exact h
  · intro name hq
    constructor
    · unfold live_monitor_start
      split_ifs with hex
      · exact hq
      · unfold get_jobs_by_name at hq ⊢
        rw [List.filter_append]
        by_cases hn : liveJobName chat_id = name
        · have hz : q.filter (fun n => decide (n = name)) = [] := by
            subst hn
            simpa [get_jobs_by_name] using not_not.mp hex
          rw [hz]
          simp [hn]
        · simp [List.filter, hn]
          exact hq
    · unfold get_jobs_by_name schedule_reboot
      rw [List.filter_append]
      by_cases hn : name = "scheduled_reboot"
      · subst hn
        have := hreboot
        unfold get_jobs_by_name schedule_reboot at this
        rw [List.filter_append] at this
        omega
      · have hemp : (["scheduled_reboot"].filter fun n => decide (n = name)) = [] := by
          simp [List.filter, Ne.symm hn]
        rw [hemp]
        have hsub : List.Sublist
            ((q.filter fun n => decide (n ≠ "scheduled_reboot")).filter
              (fun n => decide (n = name)))
            (q.filter (fun n => decide (n = name))) :=
          (List.filter_sublist q).filter _
        have := hsub.length_le
        unfold get_jobs_by_name at hq
        simp only [List.length_append, List.length_nil]
        omega

/-- C8 witness: `c8_job_registration_unique` on the concrete queue
`["scheduled_reboot", "live_1"]` and chat 1: the second start request is
a no-op with exactly one live job, and re-registering the reboot job
leaves exactly one instance. -/
theorem c8_job_registration_witness :
    live_monitor_start ["scheduled_reboot", "live_1"] 1 = ["scheduled_reboot", "live_1"] ∧
    (get_jobs_by_name (schedule_reboot ["scheduled_reboot", "live_1"]) "scheduled_reboot").length = 1 := by
  have h := c8_job_registration_unique ["scheduled_reboot", "live_1"] 1
  exact ⟨(h.2.1 (by decide)).1, h.2.2.1⟩

theorem cpuPercentOf_nonneg {dt di : ℤ} (_h0 : 0 ≤ di) (h1 : di ≤ dt) :
    0 ≤ cpuPercentOf dt di := by
  unfold cpuPercentOf
  split_ifs with h
  · have hd : (di : ℚ) ≤ (dt : ℚ) := by exact_mod_cast h1
    have ht : (0 : ℚ) < (dt : ℚ) := by exact_mod_cast h
    apply div_nonneg _ ht.le
    nlinarith
  · exact le_refl 0

theorem cpuPercentOf_le_100 {dt di : ℤ} (h0 : 0 ≤ di) (_h1 : di ≤ dt) :
    cpuPercentOf dt di ≤ 100 := by
  unfold cpuPercentOf
  split_ifs with h
  · have hd : (0 : ℚ) ≤ (di : ℚ) := by exact_mod_cast h0
    have ht : (0 : ℚ) < (dt : ℚ) := by exact_mod_cast h
    rw [div_le_iff₀ ht]
    nlinarith
  · norm_num

theorem ifaceDataOf_speeds_nonneg (env : Env) (prev_stats : PrevStats)
    (curr : CurrReading) (td : ℚ) (i : String) (htd : 0 < td)
    (hx : ∀ v, prev_stats.rx? i = some v → v ≤ curr.rx i)
    (hy : ∀ v, prev_stats.tx? i = some v → v ≤ curr.tx i) :
    0 ≤ (ifaceDataOf env prev_stats curr td i).net_up_speed ∧
    0 ≤ (ifaceDataOf env prev_stats curr td i).net_down_speed := by
  unfold ifaceDataOf
  constructor
  · simp only
    apply div_nonneg _ htd.le
    rcases hvtx : prev_stats.tx? i with _ | v
    · simp [hvtx]
    · have := hy v hvtx
      simp only [hvtx, Option.getD_some]
      have : (v : ℚ) ≤ (curr.tx i : ℚ) := by exact_mod_cast this
      push_cast
      linarith
  · simp only
    apply div_nonneg _ htd.le
    rcases hvrx : prev_stats.rx? i with _ | v
    · simp [hvrx]
    · have := hx v hvrx
      simp only [hvrx, Option.getD_some]
      have : (v : ℚ) ≤ (curr.rx i : ℚ) := by exact_mod_cast this
      push_cast
      linarith

/-- C1 (amended): for every retained record and current reading with a
time delta of at least half a second, *provided no cumulative counter
decreased* (CPU idle delta between 0 and the total delta, disk and
per-interface byte counters non-decreasing), the sample has a CPU
percentage in `[0,100]` and all throughputs are non-negative.  The
unamended claim is false: the code never clamps a negative delta, so a
counter reset yields a negative throughput (see the counterexample). -/
theorem c1_rate_sample_bounds (env : Env) (prev_stats : PrevStats) (curr : CurrReading)
    (t0 : ℚ) (htime : prev_stats.time? = some t0) (hdt : 1/2 ≤ curr.time_now - t0)
    (pct pci pdr pdw : ℤ)
    (hct : prev_stats.cpu_total? = some pct) (hci : prev_stats.cpu_idle? = some pci)
    (hdr : prev_stats.disk_read? = some pdr) (hdw : prev_stats.disk_write? = some pdw)
    (hidle0 : pci ≤ curr.cpu_idle)
    (hidle1 : curr.cpu_idle - pci ≤ curr.cpu_total - pct)
    (hread : pdr ≤ curr.disk_read) (hwrite : pdw ≤ curr.disk_write)
    (hrx : ∀ i ∈ prev_stats.interfaces, ∀ v, prev_stats.rx? i = some v → v ≤ curr.rx i)
    (htx : ∀ i ∈ prev_stats.interfaces, ∀ v, prev_stats.tx? i = some v → v ≤ curr.tx i) :
    0 ≤ (get_live_stats env prev_stats curr).1.cpu_percent ∧
    (get_live_stats env prev_stats curr).1.cpu_percent ≤ 100 ∧
    0 ≤ (get_live_stats env prev_stats curr).1.disk_rw_speed ∧
    ∀ d ∈ (get_live_stats env prev_stats curr).1.interfaces_data,
      0 ≤ d.net_up_speed ∧ 0 ≤ d.net_down_speed := by
  have htd : 0 < floorHalf (curr.time_now - prev_stats.time?.getD curr.time_now) := by
    rw [htime, Option.getD_some]
    unfold floorHalf
    split_ifs
    · norm_num
    · linarith
  simp only [get_live_stats, htime, hct, hci, hdr, hdw, Option.getD_some]
  refine ⟨?_, ?_, ?_, ?_⟩
  · exact cpuPercentOf_nonneg (by omega) hidle1
  · exact cpuPercentOf_le_100 (by omega) hidle1
  · apply div_nonneg _ _
    · have : (0 : ℤ) ≤ curr.disk_read - pdr + (curr.disk_write - pdw) := by omega
      exact_mod_cast this
    · rw [htime, Option.getD_some] at htd
      exact htd.le
  · intro d hd
    rw [List.mem_map] at hd
    obtain ⟨i, hi, rfl⟩ := hd
    have h := ifaceDataOf_speeds_nonneg env prev_stats curr _ i
      (by rw [htime, Option.getD_some] at htd; exact htd)
      (fun v hv => hrx i hi v hv) (fun v hv => htx i hi v hv)
    exact ⟨h.1, h.2⟩

/-- C1 counterexample: the claim as stated is false.  A concrete record
and reading with time delta 1 s in which the cumulative disk-read
counter decreased (1000 to 0, a reset) yields a *negative* disk
throughput of -1000 bytes/s, not 0 and not a non-negative value. -/
theorem c1_counterexample :
    resetPrev.time? = some 0 ∧
    (1 : ℚ)/2 ≤ resetCurr.time_now - 0 ∧
    resetPrev.disk_read? = some 1000 ∧
    resetCurr.disk_read = 0 ∧
    (get_live_stats sampleEnv resetPrev resetCurr).1.disk_rw_speed = -1000 ∧
    (get_live_stats sampleEnv resetPrev resetCurr).1.disk_rw_speed < 0 := by
  refine ⟨rfl, by norm_num [resetCurr], rfl, rfl, ?_, ?_⟩ <;>
    norm_num [get_live_stats, resetPrev, resetCurr, sampleEnv, floorHalf]

/-- C1 witness: `c1_rate_sample_bounds` on a concrete monotone pair
(`samplePrev`, `sampleCurr`, one second apart). -/
theorem c1_rate_sample_witness :
    0 ≤ (get_live_stats sampleEnv samplePrev sampleCurr).1.cpu_percent ∧
    (get_live_stats sampleEnv samplePrev sampleCurr).1.cpu_percent ≤ 100 ∧
    0 ≤ (get_live_stats sampleEnv samplePrev sampleCurr).1.disk_rw_speed ∧
    ∀ d ∈ (get_live_stats sampleEnv samplePrev sampleCurr).1.interfaces_data,
      0 ≤ d.net_up_speed ∧ 0 ≤ d.net_down_speed := by
  refine c1_rate_sample_bounds sampleEnv samplePrev sampleCurr 0 rfl
    (by norm_num [sampleCurr]) 100 50 0 0 rfl rfl rfl rfl
    (by norm_num [sampleCurr]) (by norm_num [sampleCurr])
    (by norm_num [sampleCurr]) (by norm_num [sampleCurr]) ?_ ?_
  · intro i hi v hv
    have hieq : i = "eth0" := by simpa [samplePrev] using hi
    subst hieq
    have : v = 10 := by simpa [samplePrev] using hv.symm
    subst this
    norm_num [sampleCurr]
  · intro i hi v hv
    have hieq : i = "eth0" := by simpa [samplePrev] using hi
    subst hieq
    have : v = 20 := by simpa [samplePrev] using hv.symm
    subst this
    norm_num [sampleCurr]

/-- C6 (amended): invoked with the empty previous record, the sampler
computes against zero baselines rather than returning an all-zero
sample: the per-interface list is empty, the CPU percent equals the
boot-lifetime busy share `100*(total-idle)/total`, the RAM percent is
the current usage, and the disk rate is the cumulative counters divided
by the floored half-second delta; the retained next snapshot does equal
the current reading (that part of the claim holds). -/
theorem c6_empty_prev_sample (env : Env) (curr : CurrReading) :
    (get_live_stats env emptyPrev curr).2 = snapshotOf curr [] ∧
    (get_live_stats env emptyPrev curr).1.interfaces_data = [] ∧
    (0 < curr.cpu_total →
      (get_live_stats env emptyPrev curr).1.cpu_percent =
        100 * ((curr.cpu_total : ℚ) - (curr.cpu_idle : ℚ)) / (curr.cpu_total : ℚ)) ∧
    (0 < curr.mem_total →
      (get_live_stats env emptyPrev curr).1.ram_percent =
        ((curr.mem_total : ℚ) - (curr.mem_available : ℚ)) / (curr.mem_total : ℚ) * 100) ∧
    (get_live_stats env emptyPrev curr).1.disk_rw_speed =
      ((curr.disk_read : ℚ) + (curr.disk_write : ℚ)) / (1/2) := by
  have htd : floorHalf 0 = 1/2 := by
    unfold floorHalf
    norm_num
  refine ⟨rfl, rfl, ?_, ?_, ?_⟩
  · intro h
    simp only [get_live_stats, emptyPrev, Option.getD_none, cpuPercentOf, sub_zero]
    rw [if_pos h]
    try push_cast
    try ring
  · intro h
    simp only [get_live_stats]
    rw [if_pos h]
    try push_cast
    try ring
  · simp only [get_live_stats, emptyPrev, Option.getD_none, sub_self, sub_zero, htd]
    push_cast
    ring

/-- C6 counterexample: the claim as stated is false.  On a concrete
reading (cpu ticks 200 total / 100 idle, ram 1000 total / 400 free) the
sample produced from the empty previous record has CPU percent 50 and
RAM percent 60 - not an all-zero RateSample. -/
theorem c6_counterexample :
    (get_live_stats sampleEnv emptyPrev seedCurr).1.cpu_percent = 50 ∧
    (get_live_stats sampleEnv emptyPrev seedCurr).1.cpu_percent ≠ 0 := by
  constructor <;>
    norm_num [get_live_stats, emptyPrev, seedCurr, sampleEnv, floorHalf, cpuPercentOf]

/-- C6 witness: `c6_empty_prev_sample` evaluated on `seedCurr` - the
seeded snapshot equals the current reading and the CPU percent is the
lifetime busy share. -/
theorem c6_empty_prev_witness :
    (get_live_stats sampleEnv emptyPrev seedCurr).2 = snapshotOf seedCurr [] ∧
    (get_live_stats sampleEnv emptyPrev seedCurr).1.cpu_percent =
      100 * ((seedCurr.cpu_total : ℚ) - (seedCurr.cpu_idle : ℚ)) / (seedCurr.cpu_total : ℚ) := by
  have h := c6_empty_prev_sample sampleEnv seedCurr
  exact ⟨h.1, h.2.2.1 (by norm_num [seedCurr])⟩

theorem cpu_run_append (s : CpuState) (a b : List (ℚ × ℚ)) :
    cpu_alert_run s (a ++ b) =
      ((cpu_alert_run (cpu_alert_run s a).1 b).1,
        (cpu_alert_run s a).2 ++ (cpu_alert_run (cpu_alert_run s a).1 b).2) := by
  induction a generalizing s with
  | nil => simp [cpu_alert_run]
  | cons p rest ih => simp [cpu_alert_run, ih]

theorem cpu_run_high (l : List (ℚ × ℚ)) (h : ℚ) (sent : Bool)
    (hl : ∀ p ∈ l, 90 < p.2) :
    cpu_alert_run ⟨some h, sent⟩ l =
      (⟨some h, sent || l.any (fun p => decide (300 < p.1 - h))⟩,
        if sent = false ∧ l.any (fun p => decide (300 < p.1 - h)) = true
        then [CpuMsg.alert] else []) := by
  induction l generalizing sent with
  | nil => simp [cpu_alert_run]
  | cons p rest ih =>
    have hp : 90 < p.2 := hl p (List.mem_cons_self p rest)
    have hrest : ∀ x ∈ rest, 90 < x.2 := fun x hx => hl x (List.mem_cons_of_mem p hx)
    simp only [cpu_alert_run]
    by_cases htr : 300 < p.1 - h
    · cases sent with
      | false =>
        have hstep : cpu_alert_callback ⟨some h, false⟩ p.1 p.2 =
            (⟨some h, true⟩, [CpuMsg.alert]) := by
          simp [cpu_alert_callback, hp, htr]
        rw [hstep, ih true hrest]
        simp [htr]
      | true =>
        have hstep : cpu_alert_callback ⟨some h, true⟩ p.1 p.2 = (⟨some h, true⟩, []) := by
          simp [cpu_alert_callback, hp, htr]
        rw [hstep, ih true hrest]
        simp
    · have hstep : cpu_alert_callback ⟨some h, sent⟩ p.1 p.2 = (⟨some h, sent⟩, []) := by
        simp [cpu_alert_callback, hp, htr]
      have hd : decide (300 < p.1 - h) = false := decide_eq_false htr
      rw [hstep, ih sent hrest]
      simp only [List.any_cons, hd, Bool.false_or]
      simp

theorem cpu_run_low_clean (l : List (ℚ × ℚ)) (hl : ∀ p ∈ l, ¬ 90 < p.2) :
    cpu_alert_run ⟨none, false⟩ l = (⟨none, false⟩, []) := by
  induction l with
  | nil => rfl
  | cons p rest ih =>
    have hp := hl p (List.mem_cons_self p rest)
    have hrest : ∀ x ∈ rest, ¬ 90 < x.2 := fun x hx => hl x (List.mem_cons_of_mem p hx)
    simp only [cpu_alert_run]
    have hstep : cpu_alert_callback ⟨none, false⟩ p.1 p.2 = (⟨none, false⟩, []) := by
      simp [cpu_alert_callback, hp]
    rw [hstep, ih hrest]
    simp

theorem cpu_run_low (l : List (ℚ × ℚ)) (s : CpuState)
    (hl : ∀ p ∈ l, ¬ 90 < p.2) (hne : l ≠ []) :
    cpu_alert_run s l =
      (⟨none, false⟩, if s.alert_sent then [CpuMsg.recovery] else []) := by
  cases l with
  | nil => exact absurd rfl hne
  | cons p rest =>
    have hp := hl p (List.mem_cons_self p rest)
    have hrest : ∀ x ∈ rest, ¬ 90 < x.2 := fun x hx => hl x (List.mem_cons_of_mem p hx)
    simp only [cpu_alert_run]
    have hstep : cpu_alert_callback s p.1 p.2 =
        (⟨none, false⟩, if s.alert_sent then [CpuMsg.recovery] else []) := by
      rcases s with ⟨hs, sent⟩
      cases sent <;> simp [cpu_alert_callback, hp]
    rw [hstep, cpu_run_low_clean rest hrest]
    cases hsent : s.alert_sent <;> simp [hsent]

/-- C2: the CPU hysteresis watcher over any tick trace that starts a
high episode at `(t0, l0)`, continues with high ticks `highRest` and
then drops with low ticks `lows`:  (a) if no high tick is more than
300 s after the first one, no notification at all is emitted; (b) if
some high tick exceeds the 300 s duration, exactly one alert is emitted
over the whole high episode (the sent-flag suppresses repeats); (c) in
that case the first low tick emits exactly one recovery notice and the
final state is fully cleared (no high-since, no sent-flag); (d) from the
cleared state further low ticks emit nothing until a new episode
completes the cycle. -/
theorem c2_cpu_hysteresis (t0 l0 : ℚ) (highRest lows : List (ℚ × ℚ))
    (h0 : 90 < l0)
    (hhigh : ∀ p ∈ highRest, 90 < p.2)
    (hlow : ∀ p ∈ lows, ¬ 90 < p.2) :
    ((∀ p ∈ highRest, p.1 - t0 ≤ 300) →
      (cpu_alert_run ⟨none, false⟩ ((t0, l0) :: (highRest ++ lows))).2 = []) ∧
    ((∃ p ∈ highRest, 300 < p.1 - t0) → lows = [] →
      (cpu_alert_run ⟨none, false⟩ ((t0, l0) :: (highRest ++ lows))).2 = [CpuMsg.alert]) ∧
    ((∃ p ∈ highRest, 300 < p.1 - t0) → lows ≠ [] →
      (cpu_alert_run ⟨none, false⟩ ((t0, l0) :: (highRest ++ lows))).2 =
        [CpuMsg.alert, CpuMsg.recovery] ∧
      (cpu_alert_run ⟨none, false⟩ ((t0, l0) :: (highRest ++ lows))).1 = ⟨none, false⟩) ∧
    (∀ after : List (ℚ × ℚ), (∀ p ∈ after, ¬ 90 < p.2) →
      (cpu_alert_run ⟨none, false⟩ after).2 = []) := by
  have hstep0 : cpu_alert_callback ⟨none, false⟩ t0 l0 = (⟨some t0, false⟩, []) := by
    simp [cpu_alert_callback, h0]
  have hrun : cpu_alert_run ⟨none, false⟩ ((t0, l0) :: (highRest ++ lows)) =
      ((cpu_alert_run ⟨some t0, false⟩ (highRest ++ lows)).1,
        (cpu_alert_run ⟨some t0, false⟩ (highRest ++ lows)).2) := by
    simp only [cpu_alert_run]
    rw [hstep0]
    simp
  refine ⟨?_, ?_, ?_, fun after hafter => cpu_run_low_clean after hafter ▸ rfl⟩
  · intro hall
    have hA : highRest.any (fun p => decide (300 < p.1 - t0)) = false := by
      rw [List.any_eq_false]
      intro x hx
      simpa using not_lt.mpr (hall x hx)
    rw [hrun, cpu_run_append, cpu_run_high highRest t0 false hhigh]
    simp only [hA, Bool.or_false]
    rcases lows with _ | ⟨q, qs⟩
    · simp [cpu_alert_run, hA]
    · rw [cpu_run_low (q :: qs) ⟨some t0, false⟩ hlow (by simp)]
      simp [hA]
  · intro hex hnil
    have hA : highRest.any (fun p => decide (300 < p.1 - t0)) = true := by
      rw [List.any_eq_true]
      obtain ⟨p, hp, hp3⟩ := hex
      exact ⟨p, hp, by simpa using hp3⟩
    subst hnil
    rw [hrun]
    simp only [List.append_nil]
    rw [cpu_run_high highRest t0 false hhigh]
    simp [hA]
  · intro hex hne
    have hA : highRest.any (fun p => decide (300 < p.1 - t0)) = true := by
      rw [List.any_eq_true]
      obtain ⟨p, hp, hp3⟩ := hex
      exact ⟨p, hp, by simpa using hp3⟩
    rw [hrun, cpu_run_append, cpu_run_high highRest t0 false hhigh]
    rw [cpu_run_low lows ⟨some t0, false || highRest.any (fun p => decide (300 < p.1 - t0))⟩
      hlow hne]
    simp [hA]

/-- C2 witness: `c2_cpu_hysteresis` on the concrete trace high at
times 0, 60 and 310 (load 95) and low at 370 (load 50): exactly one
alert followed by exactly one recovery, final state fully cleared. -/
theorem c2_cpu_hysteresis_witness :
    (cpu_alert_run ⟨none, false⟩ ((0, 95) :: ([(60, 95), (310, 95)] ++ [(370, 50)]))).2 =
      [CpuMsg.alert, CpuMsg.recovery] ∧
    (cpu_alert_run ⟨none, false⟩ ((0, 95) :: ([(60, 95), (310, 95)] ++ [(370, 50)]))).1 =
      ⟨none, false⟩ := by
  refine (c2_cpu_hysteresis 0 95 [(60, 95), (310, 95)] [(370, 50)]
    (by norm_num) ?_ ?_).2.2.1 ?_ (by simp)
  · intro p hp
    simp only [List.mem_cons, List.not_mem_nil, or_false] at hp
    rcases hp with rfl | rfl <;> norm_num
  · intro p hp
    simp only [List.mem_cons, List.not_mem_nil, or_false] at hp
    subst hp
    norm_num
  · exact ⟨(310, 95), by simp, by norm_num⟩

theorem mem_newList {known : Finset String} {devices : List NetDevice} {m : String} :
    m ∈ (devices.map (fun d => d.mac)).dedup.filter (fun x => x ∉ known) ↔
      m ∈ currentMacs devices \ known := by
  simp [currentMacs, List.mem_filter, List.mem_dedup, Finset.mem_sdiff, List.mem_toFinset]

/-- C3 (amended): the new-device watcher seeds the durable set from a
first non-empty observation with zero notifications; otherwise it emits
exactly one notification for each identifier present now but absent
from the known set (and none for any other identifier) and then - when
at least one new identifier exists - persists the *current observed
set* as the new durable set (identifiers no longer observed are
dropped; the unamended claim said the union is persisted, which is
false), leaving the durable set unchanged when nothing is new. -/
theorem c3_new_device_watcher (known : Finset String) (devices : List NetDevice) :
    (known = ∅ → currentMacs devices ≠ ∅ →
      check_new_devices known devices = (currentMacs devices, [])) ∧
    (¬(known = ∅ ∧ currentMacs devices ≠ ∅) →
      (∀ m ∈ currentMacs devices \ known,
        ((check_new_devices known devices).2).count m = 1) ∧
      (∀ m, m ∉ currentMacs devices \ known →
        ((check_new_devices known devices).2).count m = 0) ∧
      (currentMacs devices \ known ≠ ∅ →
        (check_new_devices known devices).1 = currentMacs devices) ∧
      (currentMacs devices \ known = ∅ →
        (check_new_devices known devices).1 = known)) := by
  constructor
  · intro h1 h2
    unfold check_new_devices
    rw [if_pos ⟨h1, h2⟩]
  · intro hniff
    have hnodup : ((devices.map (fun d => d.mac)).dedup.filter (fun m => m ∉ known)).Nodup :=
      (List.nodup_dedup _).filter _
    have hfind : ∀ m ∈ (devices.map (fun d => d.mac)).dedup.filter (fun m => m ∉ known),
        (devices.find? (fun d => d.mac == m)).isSome = true := by
      intro m hm
      have hm2 : m ∈ devices.map (fun d => d.mac) :=
        List.mem_dedup.mp (List.mem_filter.mp hm).1
      obtain ⟨d, hd, rfl⟩ := List.mem_map.mp hm2
      exact List.find?_isSome.mpr ⟨d, hd, by simp⟩
    have hself : ((devices.map (fun d => d.mac)).dedup.filter (fun m => m ∉ known)).filter
        (fun mac => (devices.find? (fun d => d.mac == mac)).isSome) =
        (devices.map (fun d => d.mac)).dedup.filter (fun m => m ∉ known) :=
      List.filter_eq_self.mpr hfind
    have hiff : ((devices.map (fun d => d.mac)).dedup.filter (fun m => m ∉ known)) = [] ↔
        currentMacs devices \ known = ∅ := by
      rw [List.eq_nil_iff_forall_not_mem, Finset.eq_empty_iff_forall_not_mem]
      constructor
      · intro h m hm
        exact h m (mem_newList.mpr hm)
      · intro h m hm
        exact h m (mem_newList.mp hm)
    by_cases hne : ((devices.map (fun d => d.mac)).dedup.filter (fun m => m ∉ known)) = []
    · have hres : check_new_devices known devices = (known, []) := by
        unfold check_new_devices
        rw [if_neg hniff, if_neg (not_not.mpr hne)]
      refine ⟨?_, ?_, ?_, fun _ => by rw [hres]⟩
      · intro m hm
        exact absurd (hiff.mp hne ▸ hm) (Finset.not_mem_empty m)
      · intro m _
        rw [hres]
        rfl
      · intro hcon
        exact absurd (hiff.mp hne) hcon
    · have hres : check_new_devices known devices =
          (currentMacs devices,
            (devices.map (fun d => d.mac)).dedup.filter (fun m => m ∉ known)) := by
        unfold check_new_devices
        rw [if_neg hniff, if_pos hne, hself]
      refine ⟨?_, ?_, fun _ => by rw [hres], ?_⟩
      · intro m hm
        rw [hres]
        exact List.count_eq_one_of_mem hnodup (mem_newList.mpr hm)
      · intro m hm
        rw [hres]
        exact List.count_eq_zero_of_not_mem (fun hc => hm (mem_newList.mp hc))
      · intro hemp
        exact absurd (hiff.mpr hemp) hne

/-- C3 counterexample: with known set containing only `AA:…:01` and a
single observed device `BB:…:02`, the watcher notifies for the new
device but persists just the current set - not the union of known and
current as the claim states (the previously known mac is dropped). -/
theorem c3_counterexample :
    (check_new_devices c3Known c3Devs).2 = ["BB:BB:BB:BB:BB:02"] ∧
    (check_new_devices c3Known c3Devs).1 ≠ c3Known ∪ currentMacs c3Devs := by
  constructor
  · rfl
  · intro h
    have : ("AA:AA:AA:AA:AA:01" : String) ∈ (check_new_devices c3Known c3Devs).1 := by
      rw [h]
      simp [c3Known]
    revert this
    decide

/-- C3 witness: `c3_new_device_watcher` on the spec's two runs: an empty
known set with three observed devices seeds the set silently, and a
non-empty known set with one extra device notifies exactly once for it
and never for an already-known identifier. -/
theorem c3_new_device_witness :
    check_new_devices (∅ : Finset String) c3SeedDevs = (currentMacs c3SeedDevs, []) ∧
    ((check_new_devices c3Known c3Devs).2).count "BB:BB:BB:BB:BB:02" = 1 ∧
    ((check_new_devices c3Known c3Devs).2).count "AA:AA:AA:AA:AA:01" = 0 := by
  have h1 := (c3_new_device_watcher ∅ c3SeedDevs).1 rfl (by decide)
  have h2 := (c3_new_device_watcher c3Known c3Devs).2 (by decide)
  exact ⟨h1, h2.1 "BB:BB:BB:BB:BB:02" (by decide), h2.2.1 "AA:AA:AA:AA:AA:01" (by decide)⟩

theorem char_toUpper_fix (c : Char) : c.toUpper.toUpper = c.toUpper := by
  by_cases h : c.toNat ≥ 97 ∧ c.toNat ≤ 122
  · have h1 : c.toUpper = Char.ofNat (c.toNat - 32) := by
      unfold Char.toUpper
      simp [h]
    obtain ⟨ha, hb⟩ := h
    rw [h1]
    generalize hn : c.toNat = n at ha hb
    interval_cases n <;> decide
  · have h1 : c.toUpper = c := by
      unfold Char.toUpper
      simp [h]
    rw [h1, h1]

theorem pyUpper_fix (s : String) : pyUpper (pyUpper s) = pyUpper s := by
  unfold pyUpper
  simp only [List.map_map]
  exact congrArg String.mk (List.map_congr_left (fun c _ => char_toUpper_fix c))

theorem get_dhcp_leases_mac_upper (content : String) :
    ∀ d ∈ get_dhcp_leases content, pyUpper d.mac = d.mac := by
  intro d hd
  unfold get_dhcp_leases at hd
  have hd2 := (List.mergeSort_perm _ _).mem_iff.mp hd
  obtain ⟨line, _, hparse⟩ := List.mem_filterMap.mp hd2
  unfold leaseOfParts at hparse
  split_ifs at hparse
  obtain rfl := Option.some_injective _ hparse
  exact pyUpper_fix _

theorem usageInsert_upper (table : List (String × ℤ × ℤ)) (mac : String) (down up : ℤ)
    (ht : ∀ e ∈ table, pyUpper e.1 = e.1) (hm : pyUpper mac = mac) :
    ∀ e ∈ usageInsert table mac down up, pyUpper e.1 = e.1 := by
  intro e he
  unfold usageInsert at he
  split_ifs at he with hf
  · obtain ⟨x, hx, hxe⟩ := List.mem_map.mp he
    by_cases hxm : (x.1 == mac) = true
    · rw [if_pos hxm] at hxe
      subst hxe
      exact ht x hx
    · rw [if_neg hxm] at hxe
      subst hxe
      exact ht x hx
  · rcases List.mem_append.mp he with hin | hin
    · exact ht e hin
    · obtain rfl := List.mem_singleton.mp hin
      exact hm

theorem get_traffic_usage_go_upper (lines : List String) (acc : List (String × ℤ × ℤ))
    (hacc : ∀ e ∈ acc, pyUpper e.1 = e.1) :
    ∀ e ∈ get_traffic_usage_go lines acc, pyUpper e.1 = e.1 := by
  induction lines generalizing acc with
  | nil =>
    intro e he
    exact hacc e (by simpa [get_traffic_usage_go] using he)
  | cons line rest ih =>
    intro e he
    unfold get_traffic_usage_go at he
    by_cases hsh : line.startsWith "#"
    · rw [if_pos hsh] at he
      exact ih acc hacc e he
    · rw [if_neg hsh] at he
      by_cases hlen : 7 ≤ ((pyStrip line).splitOn ",").length
      · rw [if_pos hlen] at he
        rcases h5 : pyIntE (((pyStrip line).splitOn ",").getD 5 "") with m5 | v5 <;>
          rcases h6 : pyIntE (((pyStrip line).splitOn ",").getD 6 "") with m6 | v6 <;>
            simp only [h5, h6] at he
        · exact hacc e he
        · exact hacc e he
        · exact hacc e he
        · exact ih _ (usageInsert_upper acc _ v6 v5 hacc (pyUpper_fix _)) e he
      · rw [if_neg hlen] at he
        exact ih acc hacc e he

theorem get_blocked_devices_mac_upper (uci_lines : List String) :
    ∀ b ∈ get_blocked_devices uci_lines, pyUpper b.mac = b.mac := by
  intro b hb
  unfold get_blocked_devices at hb
  obtain ⟨sec, _, hparse⟩ := List.mem_filterMap.mp hb
  rcases hn : searchCapture uci_lines (sec ++ ".name=" ++ String.singleton squote ++ "Block:")
      with _ | nm <;>
    rcases hm : searchCapture uci_lines (sec ++ ".src_mac=" ++ String.singleton squote)
        with _ | mac <;>
      simp [hn, hm] at hparse
  rw [← hparse]
  exact pyUpper_fix _

/-- C10: every mac address entering the shared comparisons is
upper-case-normalized at its source: every record produced by the
DHCP-lease reader, the traffic-usage reader and the blocked-rule reader
carries a mac that is a fixed point of upper-casing; and the lease
parser maps two lines whose mac fields differ only by letter case to the
same record, so known-set membership, new-device diffing and per-device
usage lookups are insensitive to the case the files report. -/
theorem c10_mac_uppercase_normalized :
    (∀ content : String, ∀ d ∈ get_dhcp_leases content, pyUpper d.mac = d.mac) ∧
    (∀ content : String, ∀ e ∈ get_traffic_usage content, pyUpper e.1 = e.1) ∧
    (∀ uci_lines : List String, ∀ b ∈ get_blocked_devices uci_lines, pyUpper b.mac = b.mac) ∧
    (∀ pre ma mb ipf nmf : String, ∀ rest : List String, pyUpper ma = pyUpper mb →
      leaseOfParts (pre :: ma :: ipf :: nmf :: rest) =
        leaseOfParts (pre :: mb :: ipf :: nmf :: rest)) := by
  refine ⟨get_dhcp_leases_mac_upper, ?_, get_blocked_devices_mac_upper, ?_⟩
  · intro content e he
    exact get_traffic_usage_go_upper _ [] (by simp) e he
  · intro pre ma mb ipf nmf rest hupper
    simp only [leaseOfParts, List.length_cons, List.getD_cons_succ, List.getD_cons_zero,
      hupper]

/-- C10 witness: `c10_mac_uppercase_normalized` on one concrete lease
line parsed with a lower-case and an upper-case mac field: the parsed
records coincide. -/
theorem c10_mac_uppercase_witness :
    leaseOfParts ["1700000000", "aa:bb:cc:dd:ee:ff", "192.168.1.7", "host"] =
      leaseOfParts ["1700000000", "AA:BB:CC:DD:EE:FF", "192.168.1.7", "host"] :=
  c10_mac_uppercase_normalized.2.2.2 "1700000000" "aa:bb:cc:dd:ee:ff" "AA:BB:CC:DD:EE:FF"
    "192.168.1.7" "host" [] (by decide)

end ST4Wrt
